import Mathlib

/-!
Shallow embedding of the `speed` PCP instrumentation library (metrics.go and
the instance-domain file), together with theorems settling the frozen claims
about its specification.

Conventions of the embedding:
* Go's dynamically typed `interface{}` metric values become the closed sum
  `Value` below, one constructor per input kind the code inspects.
* Machine integers are modelled as `Int`/`Nat` with explicit wrap-around
  (`% 2^32`, `% 2^64`) exactly where a Go conversion truncates.
* Go `float32`/`float64` payloads are modelled as rationals (finite floats);
  the Go `float32(x)` narrowing conversion is an explicit parameter
  `cvt : ℚ → ℚ` threaded through `resolveFloat` and everything built on it.
* Fallible constructors return `Except SpeedErr _`; `Set`/`SetInstance`
  return an outcome record carrying the error (if any), the resulting stored
  value(s), and whether the update hook was invoked.
* The repository's base string hash (`getHash`, not under src/) is an
  explicit function parameter of every definition that needs it.
-/

/-- Dynamically-typed metric values: one constructor per input kind inspected
by `MetricType.IsCompatible` / `resolve` in metrics.go. The Go `int` and
`uint` (machine-word) kinds are `vint`/`vuint`; fixed-width kinds keep their
payloads; float payloads are rationals (finite floats). -/
inductive Value where
  | vint (v : Int)
  | vint32 (v : Int)
  | vint64 (v : Int)
  | vuint (v : Nat)
  | vuint32 (v : Nat)
  | vuint64 (v : Nat)
  | vfloat32 (v : ℚ)
  | vfloat64 (v : ℚ)
  | vstring (v : String)
deriving DecidableEq

/-- MetricType is an enumerated type representing all valid types for a
metric (metrics.go). -/
inductive MetricType where
  | int32Type
  | uint32Type
  | int64Type
  | uint64Type
  | floatType
  | doubleType
  | stringType
deriving DecidableEq

/-- Largest finite float32 value, `math.MaxFloat32 = (2 - 2^-23) * 2^127`,
as an exact rational. -/
def maxFloat32Q : ℚ := (2 ^ 24 - 1) * 2 ^ 104

/-- metrics.go `isCompatibleInt`: range checks of a machine `int` (int64)
against the four integer metric types. The Go `uint64(v) <= math.MaxUint64`
conjunct is the wrapped low 64 bits compared against the maximum. -/
def MetricType.isCompatibleInt (m : MetricType) (val : Int) : Bool :=
  match m with
  | .int32Type => decide (-(2 ^ 31) ≤ val) && decide (val ≤ 2 ^ 31 - 1)
  | .int64Type => decide (-(2 ^ 63) ≤ val) && decide (val ≤ 2 ^ 63 - 1)
  | .uint32Type => decide (0 ≤ val) && decide (val ≤ 2 ^ 32 - 1)
  | .uint64Type => decide (0 ≤ val) && decide ((val % 2 ^ 64).toNat ≤ 2 ^ 64 - 1)
  | _ => false

/-- metrics.go `isCompatibleUint`. -/
def MetricType.isCompatibleUint (m : MetricType) (val : Nat) : Bool :=
  if val ≤ 2 ^ 32 - 1 then decide (m = .uint32Type) || decide (m = .uint64Type)
  else decide (m = .uint64Type)

/-- metrics.go `isCompatibleFloat`. -/
def MetricType.isCompatibleFloat (m : MetricType) (val : ℚ) : Bool :=
  if -maxFloat32Q ≤ val ∧ val ≤ maxFloat32Q then
    decide (m = .floatType) || decide (m = .doubleType)
  else decide (m = .doubleType)

/-- metrics.go `IsCompatible`: checks if the passed value is compatible with
the current MetricType. -/
def MetricType.IsCompatible (m : MetricType) (val : Value) : Bool :=
  match val with
  | .vint v => m.isCompatibleInt v
  | .vint32 _ => decide (m = .int32Type)
  | .vint64 _ => decide (m = .int64Type)
  | .vuint v => m.isCompatibleUint v
  | .vuint32 _ => decide (m = .uint32Type)
  | .vuint64 _ => decide (m = .uint64Type)
  | .vfloat32 _ => decide (m = .floatType)
  | .vfloat64 v => m.isCompatibleFloat v
  | .vstring _ => decide (m = .stringType)

/-- The Go conversion `int32(v)` on a 64-bit `int`: wrap into
`[-2^31, 2^31)`. -/
def wrap32 (v : Int) : Int := (v + 2 ^ 31) % 2 ^ 32 - 2 ^ 31

/-- The Go conversion `int64(v)` result range wrap, used for counter
arithmetic overflow: wrap into `[-2^63, 2^63)`. -/
def wrap64 (v : Int) : Int := (v + 2 ^ 63) % 2 ^ 64 - 2 ^ 63

/-- metrics.go `resolveInt`: resolves an `int` to one of the 4 compatible
types (defaulting to `int32`, with Go conversion wrap-around), and a `uint`
to `uint64` or (wrapped) `uint32`. -/
def MetricType.resolveInt (m : MetricType) (val : Value) : Value :=
  match val with
  | .vint vi =>
    match m with
    | .int64Type => .vint64 vi
    | .uint32Type => .vuint32 (vi % 2 ^ 32).toNat
    | .uint64Type => .vuint64 (vi % 2 ^ 64).toNat
    | _ => .vint32 (wrap32 vi)
  | .vuint vui =>
    if m = .uint64Type then .vuint64 vui
    else .vuint32 (vui % 2 ^ 32)
  | v => v

/-- metrics.go `resolveFloat`: resolves a `float64` to `float32` when the
metric type is `FloatType`. The Go `float32(x)` narrowing conversion is the
explicit parameter `cvt`. -/
def MetricType.resolveFloat (m : MetricType) (cvt : ℚ → ℚ) (val : Value) : Value :=
  match val with
  | .vfloat64 q => if m = .floatType then .vfloat32 (cvt q) else .vfloat64 q
  | v => v

/-- metrics.go `resolve`: `resolveFloat` after `resolveInt`. -/
def MetricType.resolve (m : MetricType) (cvt : ℚ → ℚ) (val : Value) : Value :=
  m.resolveFloat cvt (m.resolveInt val)

/-- SpaceUnit is an enumerated type representing all units for space
(metrics.go). The Go constants bake the PMAPI encoding `1<<28 | iota<<16`
into the enumerator values; here the enumerators are abstract and `PMAPI`
computes the same encoding. -/
inductive SpaceUnit where
  | byteUnit
  | kilobyteUnit
  | megabyteUnit
  | gigabyteUnit
  | terabyteUnit
  | petabyteUnit
  | exabyteUnit
deriving DecidableEq

/-- Ordinal (`iota`) position of a SpaceUnit constant. -/
def SpaceUnit.scale : SpaceUnit → Nat
  | .byteUnit => 0
  | .kilobyteUnit => 1
  | .megabyteUnit => 2
  | .gigabyteUnit => 3
  | .terabyteUnit => 4
  | .petabyteUnit => 5
  | .exabyteUnit => 6

/-- metrics.go: 32-bit PMAPI representation of a SpaceUnit,
`1<<28 | iota<<16`. -/
def SpaceUnit.PMAPI (s : SpaceUnit) : Nat := 1 <<< 28 ||| s.scale <<< 16

/-- TimeUnit is an enumerated type representing all possible units for
representing time (metrics.go). -/
inductive TimeUnit where
  | nanosecondUnit
  | microsecondUnit
  | millisecondUnit
  | secondUnit
  | minuteUnit
  | hourUnit
deriving DecidableEq

/-- Ordinal (`iota`) position of a TimeUnit constant. -/
def TimeUnit.scale : TimeUnit → Nat
  | .nanosecondUnit => 0
  | .microsecondUnit => 1
  | .millisecondUnit => 2
  | .secondUnit => 3
  | .minuteUnit => 4
  | .hourUnit => 5

/-- metrics.go: 32-bit PMAPI representation of a TimeUnit,
`1<<24 | iota<<12`. -/
def TimeUnit.PMAPI (t : TimeUnit) : Nat := 1 <<< 24 ||| t.scale <<< 12

/-- CountUnit is a type representing a counted quantity (metrics.go);
`OneUnit` is its only value. -/
inductive CountUnit where
  | oneUnit
deriving DecidableEq

/-- metrics.go: 32-bit PMAPI representation of a CountUnit,
`1<<20 | iota<<8` with `iota = 0`. -/
def CountUnit.PMAPI : CountUnit → Nat
  | .oneUnit => 1 <<< 20 ||| 0 <<< 8

/-- The Go `MetricUnit` interface, modelled as the closed sum of the three
unit families. -/
inductive MetricUnit where
  | space (s : SpaceUnit)
  | time (t : TimeUnit)
  | count (c : CountUnit)
deriving DecidableEq

/-- PMAPI encoding of a unit of any family. -/
def MetricUnit.PMAPI : MetricUnit → Nat
  | .space s => s.PMAPI
  | .time t => t.PMAPI
  | .count c => c.PMAPI

/-- Possible values for MetricSemantics (metrics.go; the Go enumeration
skips the ordinal 2 with a blank identifier, which does not affect any claim
here). -/
inductive MetricSemantics where
  | noSemantics
  | counterSemantics
  | instantSemantics
  | discreteSemantics
deriving DecidableEq

/-- The error values the embedded code can produce, one constructor per
distinct error construction site in the source (plus `nilValuePanic`
modelling a runtime nil-entry dereference panic, and `hookFailure`, a stand-in
error an update hook may return). -/
inductive SpeedErr where
  | incompatibleType
  | incompatibleTypeValue
  | emptyName
  | nameTooLong
  | tooManyDescriptions
  | instanceCountMismatch
  | missingInstanceValue (name : String)
  | incompatibleValueForInstance (name : String)
  | unknownInstance (name : String)
  | nilValuePanic
  | hookFailure
deriving DecidableEq

/-- metrics.go: PCPMetricItemBitLength is the maximum bit size of a PCP
Metric id. -/
def PCPMetricItemBitLength : Nat := 10

/-- Modelled from the spec: `StringLength`, the maximum allowed metric name
length, is an external format constant of the MMV wire format referenced by
metrics.go but defined outside src/ (256 bytes in PCP). The claims settled
here do not depend on its numeric value. -/
def StringLength : Nat := 256

/-- Modelled from the spec: the repository's `hash(name, bitLength)` helper
(Identifier Hasher, §4.1) is not under src/. Per the spec it applies the
deterministic base hash and masks the result into `[0, 2^bitLength)`; the
base 32-bit hash `getHash` is an explicit function parameter. -/
def hashBits (getHash : String → Nat) (s : String) (b : Nat) : Nat :=
  getHash s % 2 ^ b

/-- metrics.go `PCPMetricDesc`: a metric metadata wrapper. -/
structure PCPMetricDesc where
  id : Nat
  name : String
  t : MetricType
  sem : MetricSemantics
  u : MetricUnit
  shortDescription : String
  longDescription : String
deriving DecidableEq

/-- metrics.go `newPCPMetricDesc`: creates a new Metric Description wrapper
type; name must be non-empty and at most `StringLength` bytes, and at most
two optional description strings are allowed. `desc` is the variadic slice of
description strings. -/
def newPCPMetricDesc (getHash : String → Nat) (n : String) (t : MetricType)
    (s : MetricSemantics) (u : MetricUnit) (desc : List String) :
    Except SpeedErr PCPMetricDesc :=
  if n = "" then .error .emptyName
  else if n.utf8ByteSize > StringLength then .error .nameTooLong
  else if desc.length > 2 then .error .tooManyDescriptions
  else
    .ok ⟨hashBits getHash n PCPMetricItemBitLength, n, t, s, u,
      desc.getD 0 "", desc.getD 1 ""⟩

/-- Association-list lookup, modelling a Go map read (first entry with the
key, if any). -/
def assocLookup {α β : Type} [DecidableEq α] : List (α × β) → α → Option β
  | [], _ => none
  | (k, v) :: rest, key => if key = k then some v else assocLookup rest key

/-- Association-list update of an existing key, modelling an in-place Go map
entry mutation. -/
def assocSet {α β : Type} [DecidableEq α] (l : List (α × β)) (key : α) (v : β) :
    List (α × β) :=
  l.map (fun p => if p.1 = key then (key, v) else p)

/-- metrics.go `PCPSingletonMetric`: a singleton metric with no instance
domain, only a value and an update closure (the write-through hook into the
mapped region; `none` models a nil closure). The per-metric RWMutex guards
the compare-then-write critical section and is not part of the sequential
state. -/
structure PCPSingletonMetric where
  desc : PCPMetricDesc
  val : Value
  update : Option (Value → Option SpeedErr)

/-- The metric's type, promoted from the embedded descriptor as in Go. -/
def PCPSingletonMetric.t (m : PCPSingletonMetric) : MetricType := m.desc.t

/-- metrics.go `PCPSingletonMetric.Val`: the current value, read under the
read lock. -/
def PCPSingletonMetric.Val (m : PCPSingletonMetric) : Value := m.val

/-- Everything observable about one `Set` call: the returned error (if any),
the stored value afterwards, and whether the update hook was invoked. -/
structure SetOutcome where
  err : Option SpeedErr
  val : Value
  hookCalled : Bool
deriving DecidableEq

/-- metrics.go `PCPSingletonMetric.Set`: reject an incompatible value,
resolve, and only when the resolved value differs from the stored one invoke
the update hook (returning its error without mutating on failure) and commit
the new value. -/
def PCPSingletonMetric.Set (cvt : ℚ → ℚ) (m : PCPSingletonMetric) (val : Value) :
    SetOutcome :=
  if m.t.IsCompatible val = false then ⟨some .incompatibleType, m.val, false⟩
  else
    let r := m.t.resolveFloat cvt (m.t.resolveInt val)
    if r ≠ m.val then
      match m.update with
      | some f =>
        match f r with
        | some e => ⟨some e, m.val, true⟩
        | none => ⟨none, r, true⟩
      | none => ⟨none, r, false⟩
    else ⟨none, m.val, false⟩

/-- metrics.go `NewPCPSingletonMetric`: rejects a value incompatible with the
type, builds the descriptor (propagating its errors), stores the resolved
value with a nil update closure. -/
def NewPCPSingletonMetric (cvt : ℚ → ℚ) (getHash : String → Nat) (val : Value)
    (name : String) (t : MetricType) (s : MetricSemantics) (u : MetricUnit)
    (desc : List String) : Except SpeedErr PCPSingletonMetric :=
  if t.IsCompatible val = false then .error .incompatibleTypeValue
  else
    match newPCPMetricDesc getHash name t s u desc with
    | .error e => .error e
    | .ok d => .ok ⟨d, t.resolve cvt val, none⟩

/-- metrics.go `instanceValue`: one instance's slot of an instance metric, a
value and its update closure. -/
structure instanceValue where
  val : Value
  update : Option (Value → Option SpeedErr)

/-- metrics.go `newinstanceValue`: a slot holding a value and a nil update
closure. -/
def newinstanceValue (val : Value) : instanceValue := ⟨val, none⟩

/-- Modelled from the spec: `PCPInstanceDomain` (referenced by metrics.go but
defined outside src/) is a named group of instances; what the metrics code
uses is its set of instance names, its instance count, and membership. The
instance list stands for the Go map's key set (iteration order is
unspecified in Go; the list order stands in for it). -/
structure PCPInstanceDomain where
  instances : List String

/-- Modelled from the spec: number of instances in the domain. -/
def PCPInstanceDomain.InstanceCount (d : PCPInstanceDomain) : Nat :=
  d.instances.length

/-- Modelled from the spec: whether an instance with this name is in the
domain. -/
def PCPInstanceDomain.HasInstance (d : PCPInstanceDomain) (name : String) : Bool :=
  decide (name ∈ d.instances)

/-- metrics.go `PCPInstanceMetric`: a metric with one value slot per instance
of its bound instance domain. -/
structure PCPInstanceMetric where
  desc : PCPMetricDesc
  indom : PCPInstanceDomain
  vals : List (String × instanceValue)

/-- The metric's type, promoted from the embedded descriptor as in Go. -/
def PCPInstanceMetric.t (m : PCPInstanceMetric) : MetricType := m.desc.t

/-- The per-instance loop of metrics.go `NewPCPInstanceMetric`: for each
domain instance, require a supplied value, require compatibility, and store
the resolved value in a fresh slot. -/
def buildInstanceVals (cvt : ℚ → ℚ) (t : MetricType) :
    List String → List (String × Value) →
    Except SpeedErr (List (String × instanceValue))
  | [], _ => .ok []
  | nm :: rest, vals =>
    match assocLookup vals nm with
    | none => .error (.missingInstanceValue nm)
    | some v =>
      if t.IsCompatible v = false then .error (.incompatibleValueForInstance nm)
      else
        match buildInstanceVals cvt t rest vals with
        | .error e => .error e
        | .ok ms => .ok ((nm, newinstanceValue (t.resolve cvt v)) :: ms)

/-- metrics.go `NewPCPInstanceMetric`: requires exactly one supplied value
per domain instance (count checked first), builds the descriptor, then runs
the per-instance loop. -/
def NewPCPInstanceMetric (cvt : ℚ → ℚ) (getHash : String → Nat)
    (vals : List (String × Value)) (name : String) (indom : PCPInstanceDomain)
    (t : MetricType) (s : MetricSemantics) (u : MetricUnit) (desc : List String) :
    Except SpeedErr PCPInstanceMetric :=
  if vals.length ≠ indom.InstanceCount then .error .instanceCountMismatch
  else
    match newPCPMetricDesc getHash name t s u desc with
    | .error e => .error e
    | .ok d =>
      match buildInstanceVals cvt t indom.instances vals with
      | .error e => .error e
      | .ok mvals => .ok ⟨d, indom, mvals⟩

/-- metrics.go `PCPInstanceMetric.ValInstance`: the value of one instance;
fails when the name is not in the bound domain. A domain instance with no
slot would be a nil-pointer dereference in Go, modelled as
`nilValuePanic`. -/
def PCPInstanceMetric.ValInstance (m : PCPInstanceMetric) (inst : String) :
    Except SpeedErr Value :=
  if m.indom.HasInstance inst = false then .error (.unknownInstance inst)
  else
    match assocLookup m.vals inst with
    | some iv => .ok iv.val
    | none => .error .nilValuePanic

/-- Everything observable about one `SetInstance` call: the returned error
(if any), the value slots afterwards, and whether the slot's update hook was
invoked. -/
structure SetInstanceOutcome where
  err : Option SpeedErr
  vals : List (String × instanceValue)
  hookCalled : Bool

/-- metrics.go `PCPInstanceMetric.SetInstance`: same
compatibility/no-op-on-unchanged/update-hook semantics as `Set`, scoped to
one instance's slot; fails when the instance is not in the bound domain. -/
def PCPInstanceMetric.SetInstance (cvt : ℚ → ℚ) (m : PCPInstanceMetric)
    (inst : String) (val : Value) : SetInstanceOutcome :=
  if m.t.IsCompatible val = false then ⟨some .incompatibleType, m.vals, false⟩
  else if m.indom.HasInstance inst = false then
    ⟨some (.unknownInstance inst), m.vals, false⟩
  else
    match assocLookup m.vals inst with
    | none => ⟨some .nilValuePanic, m.vals, false⟩
    | some slot =>
      let r := m.t.resolveFloat cvt (m.t.resolveInt val)
      if slot.val ≠ r then
        match slot.update with
        | some f =>
          match f r with
          | some e => ⟨some e, m.vals, true⟩
          | none => ⟨none, assocSet m.vals inst ⟨r, slot.update⟩, true⟩
        | none => ⟨none, assocSet m.vals inst ⟨r, slot.update⟩, false⟩
      else ⟨none, m.vals, false⟩

/-- Whether an update hook is present and returns an error on this value. -/
def hookFails (h : Option (Value → Option SpeedErr)) (r : Value) : Bool :=
  match h with
  | some f => (f r).isSome
  | none => false

/-- Whether a dynamically-typed value currently holds an `int64`. -/
def isInt64 : Value → Bool
  | .vint64 _ => true
  | _ => false

/-- metrics.go `NewPCPCounter`: a PCPCounter wraps a PCPSingletonMetric
pre-configured with `Int64Type`, `CounterSemantics` and `OneUnit`; it is
modelled directly as the underlying singleton metric. -/
def NewPCPCounter (cvt : ℚ → ℚ) (getHash : String → Nat) (val : Int)
    (name : String) (desc : List String) : Except SpeedErr PCPSingletonMetric :=
  NewPCPSingletonMetric cvt getHash (.vint64 val) name .int64Type
    .counterSemantics (.count .oneUnit) desc

/-- metrics.go `PCPCounter.Val`: reads the stored value and type-asserts it
to `int64`. By the counter invariant the assertion cannot fail; the
unreachable non-int64 case is mapped to 0 here. -/
def counterVal (v : Value) : Int :=
  match v with
  | .vint64 k => k
  | _ => 0

/-- One caller running `PCPCounter.Up()` (that is, `MustInc(1)`, and `Inc` is
`Val()` followed by `Set(v+1)`): `reg` holds the value it read, `done` is set
once it has written. -/
structure UpThread where
  reg : Option Int
  done : Bool
deriving DecidableEq

/-- The shared counter together with the concurrent `Up()` callers. -/
structure CounterWorld where
  m : PCPSingletonMetric
  threads : List UpThread

/-- One scheduler step of the interleaving semantics of concurrent `Up()`
calls. `Inc` holds no lock across its two halves, so each caller is two
separately schedulable steps: first it reads the counter with `Val()` (under
the read lock, released immediately), later it writes the incremented value
through `Set` (int64 addition wraps as in Go). -/
def upStep (cvt : ℚ → ℚ) (w : CounterWorld) (tid : Nat) : CounterWorld :=
  match w.threads[tid]? with
  | none => w
  | some th =>
    if th.done then w
    else
      match th.reg with
      | none =>
        { w with threads := w.threads.set tid ⟨some (counterVal w.m.Val), false⟩ }
      | some k =>
        let o := w.m.Set cvt (.vint64 (wrap64 (k + 1)))
        { m := { w.m with val := o.val },
          threads := w.threads.set tid ⟨some k, true⟩ }

/-- Run a schedule (a list of thread ids, each id naming which thread takes
the next step). -/
def runSchedule (cvt : ℚ → ℚ) (w : CounterWorld) (sched : List Nat) :
    CounterWorld :=
  sched.foldl (upStep cvt) w

/-- Ten `Up()` callers on a fresh `NewCounter(0, "requests")`, none having
taken a step yet. -/
def upWorld10 : CounterWorld :=
  ⟨⟨⟨0, "requests", .int64Type, .counterSemantics, .count .oneUnit, "", ""⟩,
    .vint64 0, none⟩, List.replicate 10 ⟨none, false⟩⟩

/-- The instance-domain file's `Instance`: an id and a name. The Go struct
also carries a back-reference to its owning domain (a pointer cycle), which
is omitted here; the domain alone controls instance lifetime. -/
structure Instance where
  id : Nat
  name : String

/-- The instance-domain file's `InstanceDomain`: id, name, instances keyed by
their 32-bit hash, and the two help texts. -/
structure InstanceDomain where
  id : Nat
  name : String
  instances : List (Nat × Instance)
  shortHelpText : String
  longHelpText : String

/-- A read of the package-level `instanceDomains` map: `none` models the nil
(never initialized) map, whose reads succeed and find nothing. -/
def storeLookup (store : Option (List (Nat × InstanceDomain))) (h : Nat) :
    Option InstanceDomain :=
  match store with
  | none => none
  | some m => assocLookup m h

/-- The instance-domain file's `NewInstanceDomain`: creates a new instance
domain or returns an already created one for the passed name, keyed by the
name's hash in the package-level `instanceDomains` map (passed and returned
explicitly here). A result of `none` models the Go runtime panic of writing
to the nil map; reads of the nil map succeed and find nothing, as in Go. -/
def NewInstanceDomain (getHash : String → Nat)
    (instanceDomains : Option (List (Nat × InstanceDomain)))
    (name shortDescription longDescription : String) :
    Option (InstanceDomain × Option (List (Nat × InstanceDomain))) :=
  let h := getHash name
  match storeLookup instanceDomains h with
  | some v => some (v, instanceDomains)
  | none =>
    match instanceDomains with
    | none => none
    | some m =>
      let d : InstanceDomain := ⟨h, name, [], shortDescription, longDescription⟩
      some (d, some ((h, d) :: m))

/-- On valid inputs `newPCPMetricDesc` succeeds and the id is the name's hash
truncated to `PCPMetricItemBitLength` bits. -/
lemma newPCPMetricDesc_ok (getHash : String → Nat) (n : String) (t : MetricType)
    (s : MetricSemantics) (u : MetricUnit) (desc : List String)
    (h1 : n ≠ "") (h2 : n.utf8ByteSize ≤ StringLength) (h3 : desc.length ≤ 2) :
    newPCPMetricDesc getHash n t s u desc =
      .ok ⟨hashBits getHash n PCPMetricItemBitLength, n, t, s, u,
        desc.getD 0 "", desc.getD 1 ""⟩ := by
  simp [newPCPMetricDesc, h1, Nat.not_lt.mpr h2, Nat.not_lt.mpr h3]

/-- Claim C8: metric descriptor construction fails with `EmptyName` when the
name is empty, with `NameTooLong` when it exceeds the maximum allowed length,
and with `TooManyDescriptions` when more than two description strings are
supplied; otherwise it succeeds and the descriptor's id is the name's hash
truncated to the 10-bit metric-id width, hence below `2^10`. -/
theorem newPCPMetricDesc_spec :
    ∀ (getHash : String → Nat) (n : String) (t : MetricType)
      (s : MetricSemantics) (u : MetricUnit) (desc : List String),
      (n = "" → newPCPMetricDesc getHash n t s u desc = .error .emptyName) ∧
      (n ≠ "" → n.utf8ByteSize > StringLength →
        newPCPMetricDesc getHash n t s u desc = .error .nameTooLong) ∧
      (n ≠ "" → n.utf8ByteSize ≤ StringLength → desc.length > 2 →
        newPCPMetricDesc getHash n t s u desc = .error .tooManyDescriptions) ∧
      (n ≠ "" → n.utf8ByteSize ≤ StringLength → desc.length ≤ 2 →
        ∃ d, newPCPMetricDesc getHash n t s u desc = .ok d ∧
          d.id = hashBits getHash n PCPMetricItemBitLength ∧ d.id < 2 ^ 10) := by
  intro getHash n t s u desc
  refine ⟨fun h => by simp [newPCPMetricDesc, h], fun h1 h2 => ?_, fun h1 h2 h3 => ?_,
    fun h1 h2 h3 => ?_⟩
  · simp [newPCPMetricDesc, h1, h2]
  · simp [newPCPMetricDesc, h1, Nat.not_lt.mpr h2, h3]
  · refine ⟨_, newPCPMetricDesc_ok getHash n t s u desc h1 h2 h3, rfl, ?_⟩
    exact Nat.mod_lt _ (by norm_num)

/-- Claim C8 witness: the success case at the one-byte name `"a"`, base hash
constantly `1234567`, no descriptions. -/
theorem newPCPMetricDesc_spec_witness :
    ∃ d, newPCPMetricDesc (fun _ => 1234567) "a" .int64Type .counterSemantics
        (.count .oneUnit) [] = .ok d ∧
      d.id = hashBits (fun _ => 1234567) "a" PCPMetricItemBitLength ∧ d.id < 2 ^ 10 :=
  (newPCPMetricDesc_spec (fun _ => 1234567) "a" .int64Type .counterSemantics
    (.count .oneUnit) []).2.2.2 (by decide) (by decide) (by decide)

/-- Claim C4 counterexample: resolution can turn an incompatible value into a
compatible representation. `Int32Type` is not compatible with the machine
integer `2^31`, yet resolving it wraps to the `int32` value `-2^31`, which is
compatible, so `IsCompatible v` and `IsCompatible (resolve v)` differ. -/
theorem isCompatible_resolve_cex :
    MetricType.IsCompatible .int32Type (.vint (2 ^ 31)) = false ∧
    MetricType.IsCompatible .int32Type
      (MetricType.resolve .int32Type (fun q => q) (.vint (2 ^ 31))) = true := by
  constructor <;> decide

/-- Claim C4 (amended): for every metric type `t`, conversion `cvt` and value
`v` of the supported input kinds, if `t.IsCompatible v` then
`t.IsCompatible (t.resolve v)`: resolving a compatible value never produces
an incompatible representation (the converse fails, see the
counterexample). -/
theorem isCompatible_resolve_amended :
    ∀ (cvt : ℚ → ℚ) (t : MetricType) (v : Value),
      t.IsCompatible v = true → t.IsCompatible (t.resolve cvt v) = true := by
  intro cvt t v h
  cases v <;> cases t <;>
    simp_all [MetricType.IsCompatible, MetricType.resolve, MetricType.resolveInt,
      MetricType.resolveFloat, MetricType.isCompatibleInt, MetricType.isCompatibleUint,
      MetricType.isCompatibleFloat]

/-- Claim C4 witness: the amended theorem applied to the generic integer 5
with `Int32Type`, which resolves to the 32-bit integer 5 and stays
compatible. -/
theorem isCompatible_resolve_amended_witness :
    MetricType.IsCompatible .int32Type
      (MetricType.resolve .int32Type (fun q => q) (.vint 5)) = true :=
  isCompatible_resolve_amended (fun q => q) .int32Type (.vint 5) (by decide)

/-- Claim C7: every pair of units drawn from two different families among
SpaceUnit, TimeUnit and CountUnit has numerically unequal 32-bit PMAPI
encodings, even though the ordinal positions within the families overlap. -/
theorem unit_pmapi_cross_family_distinct :
    ∀ (s : SpaceUnit) (t : TimeUnit) (c : CountUnit),
      s.PMAPI ≠ t.PMAPI ∧ s.PMAPI ≠ c.PMAPI ∧ t.PMAPI ≠ c.PMAPI := by
  intro s t c
  cases s <;> cases t <;> cases c <;> decide

/-- Claim C1: setting a compatible value whose resolution equals the
currently stored value is a no-op: `Set` returns success, does not invoke
the update hook, and leaves the stored value unchanged; likewise
`SetInstance` on one instance's slot of an instance metric. -/
theorem singleton_set_unchanged_noop :
    (∀ (cvt : ℚ → ℚ) (m : PCPSingletonMetric) (v : Value),
      m.t.IsCompatible v = true →
      m.t.resolve cvt v = m.val →
      m.Set cvt v = ⟨none, m.val, false⟩) ∧
    (∀ (cvt : ℚ → ℚ) (m : PCPInstanceMetric) (inst : String) (v : Value)
      (slot : instanceValue),
      m.t.IsCompatible v = true →
      m.indom.HasInstance inst = true →
      assocLookup m.vals inst = some slot →
      m.t.resolve cvt v = slot.val →
      m.SetInstance cvt inst v = ⟨none, m.vals, false⟩) := by
  constructor
  · intro cvt m v hcomp hres
    rw [MetricType.resolve] at hres
    simp [PCPSingletonMetric.Set, hcomp, hres]
  · intro cvt m inst v slot hcomp hhas hlook hres
    rw [MetricType.resolve] at hres
    simp [PCPInstanceMetric.SetInstance, hcomp, hhas, hlook, hres]

/-- Claim C1 witness: both parts at an int64 metric storing 5, set to 5
again. -/
theorem singleton_set_unchanged_noop_witness :
    PCPSingletonMetric.Set (fun q => q)
      ⟨⟨0, "m", .int64Type, .counterSemantics, .count .oneUnit, "", ""⟩,
        .vint64 5, none⟩ (.vint64 5) = ⟨none, .vint64 5, false⟩ ∧
    PCPInstanceMetric.SetInstance (fun q => q)
      ⟨⟨0, "m", .int64Type, .counterSemantics, .count .oneUnit, "", ""⟩,
        ⟨["a"]⟩, [("a", ⟨.vint64 5, none⟩)]⟩ "a" (.vint64 5)
      = ⟨none, [("a", ⟨.vint64 5, none⟩)], false⟩ :=
  ⟨singleton_set_unchanged_noop.1 (fun q => q) _ (.vint64 5) (by decide) (by rfl),
   singleton_set_unchanged_noop.2 (fun q => q) _ "a" (.vint64 5) ⟨.vint64 5, none⟩
     (by decide) (by decide) (by rfl) (by rfl)⟩

/-- Claim C2 counterexample: with an always-failing update hook installed and
the stored value `int64 5`, `Set` of the compatible value `int64 5` succeeds
(returns no error) even though the update hook fails on the resolved value —
so "returns an error exactly when the value is incompatible or the update
hook fails on the resolved value" is false as stated: the hook is never
invoked when the resolved value equals the stored one. -/
theorem set_error_iff_cex :
    (PCPSingletonMetric.Set (fun q => q)
      ⟨⟨0, "m", .int64Type, .counterSemantics, .count .oneUnit, "", ""⟩,
        .vint64 5, some (fun _ => some .hookFailure)⟩ (.vint64 5)).err = none ∧
    MetricType.IsCompatible .int64Type (.vint64 5) = true ∧
    (fun _ : Value => some SpeedErr.hookFailure)
      (MetricType.resolve .int64Type (fun q => q) (.vint64 5)) =
      some .hookFailure := by
  refine ⟨by decide, by decide, rfl⟩

/-- Claim C2 (amended): `Set` returns an error exactly when the value fails
the metric type's compatibility check, or the resolved value differs from the
stored value and the update hook is present and fails on the resolved value;
and whenever `Set` returns an error the stored value is unchanged. -/
theorem set_error_iff_amended :
    ∀ (cvt : ℚ → ℚ) (m : PCPSingletonMetric) (v : Value),
      ((m.Set cvt v).err.isSome
        = (!(m.t.IsCompatible v) ||
           (decide (m.t.resolve cvt v ≠ m.val) &&
             hookFails m.update (m.t.resolve cvt v)))) ∧
      ((m.Set cvt v).err.isSome = true → (m.Set cvt v).val = m.val) := by
  intro cvt m v
  by_cases hc : m.t.IsCompatible v = false
  · simp [PCPSingletonMetric.Set, hc, Bool.not_eq_true']
  · rw [Bool.not_eq_false] at hc
    by_cases hr : m.t.resolveFloat cvt (m.t.resolveInt v) = m.val
    · have hr' : m.t.resolve cvt v = m.val := by rw [MetricType.resolve]; exact hr
      simp [PCPSingletonMetric.Set, hc, hr, hr']
    · have hr' : m.t.resolve cvt v ≠ m.val := by rw [MetricType.resolve]; exact hr
      cases hu : m.update with
      | none => simp [PCPSingletonMetric.Set, hookFails, hc, hr, hr', hu]
      | some f =>
        cases hf : f (m.t.resolveFloat cvt (m.t.resolveInt v)) with
        | none =>
          have hff : f (m.t.resolve cvt v) = none := by
            rw [MetricType.resolve]; exact hf
          simp [PCPSingletonMetric.Set, hookFails, hc, hr, hr', hu, hf, hff]
        | some e =>
          have hff : f (m.t.resolve cvt v) = some e := by
            rw [MetricType.resolve]; exact hf
          simp [PCPSingletonMetric.Set, hookFails, hc, hr, hr', hu, hf, hff]

/-- Claim C2 witness: the unchanged-on-error part at an incompatible set, an
int64 metric storing 5 being set to a string. -/
theorem set_error_iff_amended_witness :
    (PCPSingletonMetric.Set (fun q => q)
      ⟨⟨0, "m", .int64Type, .counterSemantics, .count .oneUnit, "", ""⟩,
        .vint64 5, none⟩ (.vstring "x")).val = .vint64 5 :=
  (set_error_iff_amended (fun q => q)
    ⟨⟨0, "m", .int64Type, .counterSemantics, .count .oneUnit, "", ""⟩,
      .vint64 5, none⟩ (.vstring "x")).2 (by decide)

set_option maxRecDepth 4000 in
/-- Claim C3 counterexample: a complete concurrent execution of ten `Up()`
callers on a fresh counter at 0 in which every caller reads (with `Val()`)
before any caller writes (with `Set`). All ten threads finish, yet the
counter ends at 1, not 10: `Inc` is `Get` followed by `Set` with no lock
held across the two, so concurrent increments are lost. -/
theorem counter_concurrent_lost_update :
    ((runSchedule (fun q => q) upWorld10
        [0, 1, 2, 3, 4, 5, 6, 7, 8, 9, 0, 1, 2, 3, 4, 5, 6, 7, 8, 9]).threads.all
      (fun th => th.done)) = true ∧
    counterVal (runSchedule (fun q => q) upWorld10
        [0, 1, 2, 3, 4, 5, 6, 7, 8, 9, 0, 1, 2, 3, 4, 5, 6, 7, 8, 9]).m.val
      = 1 := by
  constructor <;> decide

set_option maxRecDepth 4000 in
/-- Claim C3 (amended): ten sequential `Up()` calls (each caller completing
its `Val()`-then-`Set` pair before the next starts) on a counter created at 0
yield `Val() == 10`. -/
theorem counter_sequential_ups :
    ((runSchedule (fun q => q) upWorld10
        [0, 0, 1, 1, 2, 2, 3, 3, 4, 4, 5, 5, 6, 6, 7, 7, 8, 8, 9, 9]).threads.all
      (fun th => th.done)) = true ∧
    counterVal (runSchedule (fun q => q) upWorld10
        [0, 0, 1, 1, 2, 2, 3, 3, 4, 4, 5, 5, 6, 6, 7, 7, 8, 8, 9, 9]).m.val
      = 10 := by
  constructor <;> decide

/-- Resolution at `Int64Type` of any value passing the `Int64Type`
compatibility check yields an `int64`-typed value. -/
lemma int64_resolve_isInt64 (cvt : ℚ → ℚ) (v : Value)
    (h : MetricType.IsCompatible .int64Type v = true) :
    isInt64 (MetricType.resolve .int64Type cvt v) = true := by
  cases v <;>
    simp_all [MetricType.IsCompatible, MetricType.resolve, MetricType.resolveInt,
      MetricType.resolveFloat, MetricType.isCompatibleInt, MetricType.isCompatibleUint,
      MetricType.isCompatibleFloat, isInt64]

/-- Claim C9: a counter's stored value is `int64`-typed after construction
and stays so across every `Set` (successful or not) at the counter's
`Int64Type`, because every value accepted by the `Int64Type` compatibility
check resolves to an `int64`; hence the `int64` type assertion inside
`PCPCounter.Val` never fails. -/
theorem counter_val_int64_invariant :
    (∀ (cvt : ℚ → ℚ) (v : Value),
      MetricType.IsCompatible .int64Type v = true →
      isInt64 (MetricType.resolve .int64Type cvt v) = true) ∧
    (∀ (cvt : ℚ → ℚ) (getHash : String → Nat) (v0 : Int) (name : String)
      (desc : List String) (c : PCPSingletonMetric),
      NewPCPCounter cvt getHash v0 name desc = .ok c → isInt64 c.val = true) ∧
    (∀ (cvt : ℚ → ℚ) (m : PCPSingletonMetric) (w : Value),
      m.t = .int64Type → isInt64 m.val = true →
      isInt64 ((m.Set cvt w).val) = true) := by
  refine ⟨int64_resolve_isInt64, ?_, ?_⟩
  · intro cvt getHash v0 name desc c h
    unfold NewPCPCounter NewPCPSingletonMetric at h
    cases hd : newPCPMetricDesc getHash name .int64Type .counterSemantics
        (.count .oneUnit) desc with
    | error e => rw [hd] at h; simp [MetricType.IsCompatible] at h
    | ok d =>
      rw [hd] at h
      simp [MetricType.IsCompatible] at h
      rw [← h]
      rfl
  · intro cvt m w ht hv
    simp only [PCPSingletonMetric.Set]
    rw [ht]
    by_cases hc : MetricType.IsCompatible .int64Type w = false
    · simp [hc, hv]
    · rw [Bool.not_eq_false] at hc
      have hres := int64_resolve_isInt64 cvt w hc
      rw [MetricType.resolve] at hres
      by_cases hr :
          MetricType.resolveFloat .int64Type cvt (MetricType.resolveInt .int64Type w)
            = m.val
      · simp [hc, hr, hv]
      · cases hu : m.update with
        | none => simp [hc, hr, hu, hres]
        | some f =>
          cases hf :
              f (MetricType.resolveFloat .int64Type cvt
                (MetricType.resolveInt .int64Type w)) with
          | none => simp [hc, hr, hu, hf, hres]
          | some e => simp [hc, hr, hu, hf, hv]

/-- Claim C9 witness: the `Set`-preservation part at a concrete counter
storing 0, set to `int64 7`. -/
theorem counter_val_int64_invariant_witness :
    isInt64 ((PCPSingletonMetric.Set (fun q => q)
      ⟨⟨0, "c", .int64Type, .counterSemantics, .count .oneUnit, "", ""⟩,
        .vint64 0, none⟩ (.vint64 7)).val) = true :=
  counter_val_int64_invariant.2.2 (fun q => q)
    ⟨⟨0, "c", .int64Type, .counterSemantics, .count .oneUnit, "", ""⟩,
      .vint64 0, none⟩ (.vint64 7) rfl rfl

/-- Claim C6: `NewInstanceDomain` is an idempotent factory keyed by the hash
of the name: from any initialized domain map, a first call returns some
domain and map; a second call with the same name (and any other help texts)
returns the identical domain and leaves the map unchanged, so the new help
texts are discarded rather than applied or reported as an error. -/
theorem newInstanceDomain_idempotent :
    ∀ (getHash : String → Nat) (m : List (Nat × InstanceDomain))
      (name sd ld sd' ld' : String),
      ∃ d st', NewInstanceDomain getHash (some m) name sd ld = some (d, st') ∧
        NewInstanceDomain getHash st' name sd' ld' = some (d, st') := by
  intro getHash m name sd ld sd' ld'
  cases h : assocLookup m (getHash name) with
  | some v =>
    exact ⟨v, some m, by simp [NewInstanceDomain, storeLookup, h],
      by simp [NewInstanceDomain, storeLookup, h]⟩
  | none =>
    refine ⟨⟨getHash name, name, [], sd, ld⟩,
      some ((getHash name, ⟨getHash name, name, [], sd, ld⟩) :: m),
      by simp [NewInstanceDomain, storeLookup, h], ?_⟩
    simp [NewInstanceDomain, storeLookup, assocLookup]

/-- Claim C10: the package-level `instanceDomains` map is declared but never
initialized in the source; before it is made, any `NewInstanceDomain` call
for a name not already registered (and the nil map registers nothing) panics
on the nil-map insert, modelled as the `none` result — while with an
initialized map every call succeeds, so the idempotent-factory contract
holds only under the precondition that the map was made at monitoring
start. -/
theorem newInstanceDomain_nil_map_panics :
    (∀ (getHash : String → Nat) (name sd ld : String),
      NewInstanceDomain getHash none name sd ld = none) ∧
    (∀ (getHash : String → Nat) (m : List (Nat × InstanceDomain))
      (name sd ld : String),
      (NewInstanceDomain getHash (some m) name sd ld).isSome = true) := by
  constructor
  · intro getHash name sd ld
    rfl
  · intro getHash m name sd ld
    cases h : assocLookup m (getHash name) with
    | some v => simp [NewInstanceDomain, storeLookup, h]
    | none => simp [NewInstanceDomain, storeLookup, h]

/-- When every domain instance has a compatible supplied value, the
per-instance loop succeeds and stores each value resolved, retrievable by
instance name. -/
lemma buildInstanceVals_ok (cvt : ℚ → ℚ) (t : MetricType) (l : List String)
    (vals : List (String × Value))
    (h : ∀ i ∈ l, ∃ v, assocLookup vals i = some v ∧ t.IsCompatible v = true) :
    ∃ mv, buildInstanceVals cvt t l vals = .ok mv ∧
      ∀ i v, i ∈ l → assocLookup vals i = some v →
        assocLookup mv i = some (newinstanceValue (t.resolve cvt v)) := by
  induction l with
  | nil =>
    refine ⟨[], rfl, ?_⟩
    intro i v hi
    cases hi
  | cons nm rest ih =>
    obtain ⟨v, hv, hcomp⟩ := h nm (List.mem_cons_self nm rest)
    obtain ⟨mv, hmv, hprop⟩ := ih (fun i hi => h i (List.mem_cons_of_mem nm hi))
    refine ⟨(nm, newinstanceValue (t.resolve cvt v)) :: mv, ?_, ?_⟩
    · simp [buildInstanceVals, hv, hcomp, hmv]
    · intro i w hi hw
      by_cases hin : i = nm
      · subst hin
        rw [hv] at hw
        injection hw with hw
        subst hw
        simp [assocLookup]
      · rcases List.mem_cons.mp hi with h1 | h1
        · exact absurd h1 hin
        · simpa [assocLookup, hin] using hprop i w h1 hw

/-- When every supplied value is compatible but some domain instance lacks a
supplied value, the per-instance loop fails with `missingInstanceValue` of
such an instance. -/
lemma buildInstanceVals_missing (cvt : ℚ → ℚ) (t : MetricType) (l : List String)
    (vals : List (String × Value))
    (hcomp : ∀ i v, assocLookup vals i = some v → t.IsCompatible v = true)
    (hmiss : ∃ i ∈ l, assocLookup vals i = none) :
    ∃ j, j ∈ l ∧ assocLookup vals j = none ∧
      buildInstanceVals cvt t l vals = .error (.missingInstanceValue j) := by
  induction l with
  | nil =>
    obtain ⟨i, hi, _⟩ := hmiss
    cases hi
  | cons nm rest ih =>
    cases hl : assocLookup vals nm with
    | none =>
      exact ⟨nm, List.mem_cons_self nm rest, hl, by simp [buildInstanceVals, hl]⟩
    | some v =>
      have hc := hcomp nm v hl
      have hmiss' : ∃ i ∈ rest, assocLookup vals i = none := by
        obtain ⟨i, hi, hni⟩ := hmiss
        rcases List.mem_cons.mp hi with h1 | h1
        · subst h1
          rw [hl] at hni
          cases hni
        · exact ⟨i, h1, hni⟩
      obtain ⟨j, hj, hnj, hbuild⟩ := ih hmiss'
      exact ⟨j, List.mem_cons_of_mem nm hj, hnj,
        by simp [buildInstanceVals, hl, hc, hbuild]⟩

/-- Claim C5 counterexample: with a bound domain of instances `a, b` and a
value map supplying only `a` (so missing the domain instance `b`),
`NewPCPInstanceMetric` fails with the instance-count-mismatch error — which
is not `MissingInstanceValue` for any instance name — because the count
check runs before any per-instance lookup. -/
theorem newInstanceMetric_missing_cex :
    NewPCPInstanceMetric (fun q => q) (fun _ => 7) [("a", .vint64 1)] "m"
        ⟨["a", "b"]⟩ .int64Type .counterSemantics (.count .oneUnit) []
      = .error .instanceCountMismatch ∧
    ∀ nm, SpeedErr.instanceCountMismatch ≠ .missingInstanceValue nm := by
  constructor
  · rfl
  · intro nm h
    cases h

/-- Claim C5 (amended): with a value map missing one instance of the bound
domain, `NewPCPInstanceMetric` fails — with `InstanceCountMismatch` when the
map's entry count differs from the domain's instance count, and with
`MissingInstanceValue` when the counts match (all supplied values being
compatible) but a domain instance lacks a value; called with exactly the
domain's instances, one compatible value per instance, it succeeds and
`ValInstance` returns each supplied value unchanged modulo type
resolution. -/
theorem newInstanceMetric_errors_success :
    (∀ (cvt : ℚ → ℚ) (getHash : String → Nat) (vals : List (String × Value))
      (name : String) (indom : PCPInstanceDomain) (t : MetricType)
      (s : MetricSemantics) (u : MetricUnit) (desc : List String),
      vals.length ≠ indom.InstanceCount →
      NewPCPInstanceMetric cvt getHash vals name indom t s u desc
        = .error .instanceCountMismatch) ∧
    (∀ (cvt : ℚ → ℚ) (getHash : String → Nat) (vals : List (String × Value))
      (name : String) (indom : PCPInstanceDomain) (t : MetricType)
      (s : MetricSemantics) (u : MetricUnit) (desc : List String),
      vals.length = indom.InstanceCount →
      name ≠ "" → name.utf8ByteSize ≤ StringLength → desc.length ≤ 2 →
      (∀ i v, assocLookup vals i = some v → t.IsCompatible v = true) →
      (∃ i ∈ indom.instances, assocLookup vals i = none) →
      ∃ j, j ∈ indom.instances ∧ assocLookup vals j = none ∧
        NewPCPInstanceMetric cvt getHash vals name indom t s u desc
          = .error (.missingInstanceValue j)) ∧
    (∀ (cvt : ℚ → ℚ) (getHash : String → Nat) (vals : List (String × Value))
      (name : String) (indom : PCPInstanceDomain) (t : MetricType)
      (s : MetricSemantics) (u : MetricUnit) (desc : List String),
      vals.length = indom.InstanceCount →
      name ≠ "" → name.utf8ByteSize ≤ StringLength → desc.length ≤ 2 →
      (∀ i ∈ indom.instances,
        ∃ v, assocLookup vals i = some v ∧ t.IsCompatible v = true) →
      ∃ m, NewPCPInstanceMetric cvt getHash vals name indom t s u desc = .ok m ∧
        ∀ i v, i ∈ indom.instances → assocLookup vals i = some v →
          m.ValInstance i = .ok (t.resolve cvt v)) := by
  refine ⟨?_, ?_, ?_⟩
  · intro cvt getHash vals name indom t s u desc hlen
    simp [NewPCPInstanceMetric, hlen]
  · intro cvt getHash vals name indom t s u desc hlen h1 h2 h3 hcomp hmiss
    obtain ⟨j, hj, hnj, hbuild⟩ := buildInstanceVals_missing cvt t indom.instances
      vals hcomp hmiss
    refine ⟨j, hj, hnj, ?_⟩
    simp [NewPCPInstanceMetric, hlen, newPCPMetricDesc_ok getHash name t s u desc
      h1 h2 h3, hbuild]
  · intro cvt getHash vals name indom t s u desc hlen h1 h2 h3 hvals
    obtain ⟨mv, hmv, hprop⟩ := buildInstanceVals_ok cvt t indom.instances vals hvals
    refine ⟨⟨⟨hashBits getHash name PCPMetricItemBitLength, name, t, s, u,
      desc.getD 0 "", desc.getD 1 ""⟩, indom, mv⟩, ?_, ?_⟩
    · simp [NewPCPInstanceMetric, hlen, newPCPMetricDesc_ok getHash name t s u desc
        h1 h2 h3, hmv]
    · intro i v hi hv
      have hlook := hprop i v hi hv
      simp [PCPInstanceMetric.ValInstance, PCPInstanceDomain.HasInstance, hi,
        hlook, newinstanceValue]

/-- Claim C5 witness: the success case at a one-instance domain `a`, the
generic integer 5, and `Int32Type` — the stored value reads back as the
32-bit integer 5. -/
theorem newInstanceMetric_errors_success_witness :
    ∃ m, NewPCPInstanceMetric (fun q => q) (fun _ => 7) [("a", .vint 5)] "m"
        ⟨["a"]⟩ .int32Type .instantSemantics (.space .byteUnit) []
      = .ok m ∧
      ∀ i v, i ∈ (⟨["a"]⟩ : PCPInstanceDomain).instances →
        assocLookup [("a", Value.vint 5)] i = some v →
        m.ValInstance i = .ok (MetricType.resolve .int32Type (fun q => q) v) :=
  (newInstanceMetric_errors_success.2.2 (fun q => q) (fun _ => 7)
    [("a", .vint 5)] "m" ⟨["a"]⟩ .int32Type .instantSemantics (.space .byteUnit) [])
    (by decide) (by decide) (by decide) (by decide)
    (by
      intro i hi
      simp only [List.mem_singleton] at hi
      subst hi
      exact ⟨.vint 5, rfl, by decide⟩)
